import Mathlib

/-!
Verification development for the IMSS catalog normalization and fast-search
indexing engine (`optimization_module.py`, `database_inspector_module.py`,
`quick_check_module.py`).

The SQLite-backed store is embedded shallowly: tables become lists of rows,
`GROUP BY` grouping and `GROUP_CONCAT` aggregation become explicit list
functions, and the Python `re.sub` pipeline of
`normalize_active_ingredient` is embedded as character-list scanners that
replicate the leftmost, non-overlapping, backtracking match semantics of the
concrete patterns appearing in the source.
-/

set_option maxRecDepth 4000

/- Batteries marks `Rat.mul` and `Rat.inv` irreducible, which blocks kernel
evaluation of the rational percentage arithmetic below; restore the default
reducibility locally so that concrete stores evaluate by `decide`. -/
attribute [local semireducible] Rat.mul Rat.inv Rat.add Rat.sub

/-! ## Character model

The source operates on Python unicode strings.  The character classes used by
the regexes (`\w`, `\s`, `\d`, `\b`) and `str.lower` / `str.upper` are modelled
for the character repertoire the catalog data uses: ASCII, Latin-1 /
Latin-Extended-A letters, and the Greek letters (for the `μg` unit token). -/

/-- Python `str.lower` on one character (ASCII, Latin-1 and Greek ranges). -/
def pyLowerChar (c : Char) : Char :=
  let v := c.toNat
  if 65 ≤ v ∧ v ≤ 90 then Char.ofNat (v + 32)
  else if 0xC0 ≤ v ∧ v ≤ 0xDE ∧ v ≠ 0xD7 then Char.ofNat (v + 32)
  else if 0x391 ≤ v ∧ v ≤ 0x3A9 ∧ v ≠ 0x3A2 then Char.ofNat (v + 32)
  else c

/-- Python `str.upper` on one character (ASCII, Latin-1 and Greek ranges). -/
def pyUpperChar (c : Char) : Char :=
  let v := c.toNat
  if 97 ≤ v ∧ v ≤ 122 then Char.ofNat (v - 32)
  else if 0xE0 ≤ v ∧ v ≤ 0xFE ∧ v ≠ 0xF7 then Char.ofNat (v - 32)
  else if 0x3B1 ≤ v ∧ v ≤ 0x3C9 ∧ v ≠ 0x3C2 then Char.ofNat (v - 32)
  else c

/-- Regex `\w` (word character) for the supported repertoire:
ASCII alphanumerics, underscore, accented Latin letters, Greek letters. -/
def isWordChar (c : Char) : Bool :=
  let v := c.toNat
  c.isAlphanum || c == '_' ||
  (decide (0xC0 ≤ v) && decide (v ≤ 0x17F) && v != 0xD7 && v != 0xF7) ||
  (decide (0x391 ≤ v) && decide (v ≤ 0x3C9) && v != 0x3A2)

/-- Regex `\s` (whitespace). -/
def pyIsSpace (c : Char) : Bool :=
  c = ' ' || c = '\t' || c = '\n' || c = '\r' || c.toNat = 0x0B || c.toNat = 0x0C

def pyLower (s : String) : String := ⟨s.data.map pyLowerChar⟩

/-! ## Basic list-of-characters utilities (prefix test, infix test,
separator join and split — the model of Python `str.split`). -/

/-- Is `pat` a prefix of `cs`? -/
def isPrefixSeq : List Char → List Char → Bool
  | [], _ => true
  | _ :: _, [] => false
  | a :: as, b :: bs => a = b && isPrefixSeq as bs

/-- Does `pat` occur as a contiguous subsequence of `cs`? -/
def hasInfixSeq (pat : List Char) : List Char → Bool
  | [] => isPrefixSeq pat []
  | c :: cs => isPrefixSeq pat (c :: cs) || hasInfixSeq pat cs

/-- String-level wrapper for `hasInfixSeq`. -/
def hasInfixS (pat s : String) : Bool := hasInfixSeq pat.data s.data

/-- Join a list of parts with a separator (model of SQL `GROUP_CONCAT`
concatenation order = scan order). -/
def joinSep (sep : List Char) : List (List Char) → List Char
  | [] => []
  | [p] => p
  | p :: q :: ps => p ++ sep ++ joinSep sep (q :: ps)

/-- String-level join. -/
def joinSepS (sep : String) (parts : List String) : String :=
  ⟨joinSep sep.data (parts.map (·.data))⟩

/-- Fuel-indexed splitter: splits `cs` at every leftmost, non-overlapping
occurrence of the (non-empty) separator `sep`, like Python `str.split(sep)`. -/
def splitOnAux (sep : List Char) : Nat → List Char → List (List Char)
  | _, [] => [[]]
  | 0, cs => [cs]
  | n + 1, c :: cs =>
    if isPrefixSeq sep (c :: cs) then
      [] :: splitOnAux sep n (List.drop sep.length (c :: cs))
    else
      match splitOnAux sep n cs with
      | [] => [[c]]
      | t :: ts => (c :: t) :: ts

/-- Split on a separator (Python `str.split(sep)` for non-empty `sep`). -/
def splitL (sep cs : List Char) : List (List Char) := splitOnAux sep cs.length cs

/-- String-level split. -/
def splitOnS (sep s : String) : List String := (splitL sep.data s.data).map String.mk

/-! ## The regex-substitution scanners for `normalize_active_ingredient` -/

/-- Try the word alternatives in order; return the remainder past the first
alternative that is a prefix of `cs`.  The alternative word lists used by the
source contain no word that is a prefix of another one tried earlier with the
same continuation, except `con`/`contiene`, which is handled by
`tryWordAlts` re-testing the boundary per alternative. -/
def tryPrefixes : List (List Char) → List Char → Option (List Char)
  | [], _ => none
  | w :: ws, cs => if isPrefixSeq w cs then some (cs.drop w.length) else tryPrefixes ws cs

/-- `\b` on the right: next character absent or not a word character. -/
def boundaryAfter : List Char → Bool
  | [] => true
  | c :: _ => !isWordChar c

/-- Ordered alternation for `\b(w1|w2|...)\b`: each alternative is tried with
its own trailing-boundary test, mirroring regex backtracking. -/
def tryWordAltsGo (cs : List Char) : List (List Char) → Option (Bool × List Char)
  | [] => none
  | w :: ws =>
    if isPrefixSeq w cs && boundaryAfter (cs.drop w.length) then
      some (true, cs.drop w.length)
    else tryWordAltsGo cs ws

/-- Matcher for the whole-word alternation patterns
(`\b(tableta|...)\b`, `\b(cada|contiene|envase|con)\b`).  `prev` is whether
the previous character is a word character (the `\b` on the left). -/
def tryWordAlts (ws : List (List Char)) (prev : Bool) (cs : List Char) :
    Option (Bool × List Char) :=
  if prev then none else tryWordAltsGo cs ws

/-- Salt/ester terms of the pattern
`\b(clorhidrato|sulfato|besilato|maleato|tartrato|citrato|acetato|bromuro)\s+(de\s+)?`. -/
def saltWords : List (List Char) :=
  ["clorhidrato".data, "sulfato".data, "besilato".data, "maleato".data,
   "tartrato".data, "citrato".data, "acetato".data, "bromuro".data]

/-- Matcher for the salt/ester-prefix pattern: a boundary-anchored salt word,
one or more whitespace characters, then optionally the connective `de`
followed by one or more whitespace characters. -/
def matchSalt (prev : Bool) (cs : List Char) : Option (Bool × List Char) :=
  if prev then none else
  match tryPrefixes saltWords cs with
  | none => none
  | some r1 =>
    let sp := r1.takeWhile pyIsSpace
    let r2 := r1.dropWhile pyIsSpace
    if sp.isEmpty then none
    else
      match r2 with
      | 'd' :: 'e' :: r3 =>
        let sp2 := r3.takeWhile pyIsSpace
        if sp2.isEmpty then some (false, r2)
        else some (false, r3.dropWhile pyIsSpace)
      | _ => some (false, r2)

/-- Unit alternatives of the concentration pattern, in the source's
alternation order.  The text has already been lower-cased, so the literal
`mEq` can never match lower-cased text; it is kept for faithfulness. -/
def unitWords : List (List Char) :=
  ["mg".data, "g".data, "ml".data, "mcg".data, "μg".data, "ui".data,
   "%".data, "mEq".data]

/-- Try the ordered unit alternatives; on success also report whether the last
consumed character is a word character (the scanner's `prev` flag). -/
def tryUnits : List (List Char) → List Char → Option (Bool × List Char)
  | [], _ => none
  | u :: us, cs =>
    if isPrefixSeq u cs then some (isWordChar (u.getLastD ' '), cs.drop u.length)
    else tryUnits us cs

/-- Matcher for `\d+(\.\d+)?\s*(mg|g|ml|mcg|μg|ui|%|mEq)` (no `\b`, so `prev`
is irrelevant).  The optional decimal group is tried greedily first and the
match falls back to the integer reading when no unit follows, mirroring
regex backtracking. -/
def matchConc (cs : List Char) : Option (Bool × List Char) :=
  let ds := cs.takeWhile Char.isDigit
  let r1 := cs.dropWhile Char.isDigit
  if ds.isEmpty then none else
  let afterUnit : List Char → Option (Bool × List Char) := fun r =>
    tryUnits unitWords (r.dropWhile pyIsSpace)
  match r1 with
  | '.' :: r =>
    let ds2 := r.takeWhile Char.isDigit
    if ds2.isEmpty then afterUnit r1
    else
      match afterUnit (r.dropWhile Char.isDigit) with
      | some x => some x
      | none => afterUnit r1
  | _ => afterUnit r1

/-- Pharmaceutical-form nouns of the pattern
`\b(tableta|capsula|ampolleta|solucion|crema|gel|jarabe|supositorio|parche)\b`.
Note: the list is unaccented, so the Spanish spellings `cápsula` and
`solución` never match. -/
def formWords : List (List Char) :=
  ["tableta".data, "capsula".data, "ampolleta".data, "solucion".data,
   "crema".data, "gel".data, "jarabe".data, "supositorio".data, "parche".data]

/-- Filler words of the pattern `\b(cada|contiene|envase|con)\b`. -/
def fillerWords : List (List Char) :=
  ["cada".data, "contiene".data, "envase".data, "con".data]

/-- One pass of `re.sub(pattern, '', text)`: scan left to right, delete every
leftmost non-overlapping match, resume scanning at each match end.  `prev`
tracks whether the previous character is a word character (for `\b`); the
fuel is an upper bound on the number of steps (every step consumes at least
one character, so `cs.length` suffices). -/
def scanSub (m : Bool → List Char → Option (Bool × List Char)) :
    Nat → Bool → List Char → List Char
  | _, _, [] => []
  | 0, _, cs => cs
  | fuel + 1, prev, c :: cs =>
    match m prev (c :: cs) with
    | some (p', rest) => scanSub m fuel p' rest
    | none => c :: scanSub m fuel (isWordChar c) cs

/-- Run one substitution pass over a character list. -/
def runSub (m : Bool → List Char → Option (Bool × List Char))
    (cs : List Char) : List Char :=
  scanSub m cs.length false cs

/-- Collapse every whitespace run to a single space
(`re.sub(r'\s+', ' ', texto)`), tracking whether the previous character was
whitespace. -/
def collapseAux : Bool → List Char → List Char
  | _, [] => []
  | prevSp, c :: cs =>
    if pyIsSpace c then
      if prevSp then collapseAux true cs else ' ' :: collapseAux true cs
    else c :: collapseAux false cs

def collapseSpaces (cs : List Char) : List Char := collapseAux false cs

/-- Python `str.strip()`. -/
def pyStrip (cs : List Char) : List Char :=
  ((cs.dropWhile pyIsSpace).reverse.dropWhile pyIsSpace).reverse

/-- `IMSSOptimizationModule.normalize_active_ingredient(descripcion,
nombre_generico)`: select `nombre_generico or descripcion`, lower-case, strip
salt prefixes, concentrations, form nouns and filler words (each step a full
`re.sub` pass with empty replacement), drop the remaining
non-word/non-space characters, collapse whitespace, trim, upper-case. -/
def normalize_active_ingredient (descripcion : String) (nombre_generico : String := "") :
    String :=
  let texto_base := if nombre_generico == "" then descripcion else nombre_generico
  let t0 := texto_base.data.map pyLowerChar
  let t1 := runSub matchSalt t0
  let t2 := runSub (fun _ cs => matchConc cs) t1
  let t3 := runSub (tryWordAlts formWords) t2
  let t4 := runSub (tryWordAlts fillerWords) t3
  let t5 := t4.filter (fun c => isWordChar c || pyIsSpace c)
  let t6 := pyStrip (collapseSpaces t5)
  ⟨t6.map pyUpperChar⟩

/-- The salt/ester-prefix stripping step of the canonicalizer in isolation:
the first `re.sub` applied to the lower-cased source text
(`re.sub(r'\b(clorhidrato|...)\s+(de\s+)?', '', texto_base.lower())`). -/
def salt_strip_step (s : String) : String := ⟨runSub matchSalt (pyLower s).data⟩

/-! ## The catalog store

`medicamentos` rows (the columns the core reads), `principios_activos` rows,
and `metadatos_sistema` rows.  `principio_activo_normalizado` is the column
added by `setup_optimization_tables`, hence nullable; `nombre_generico` and
`grupo_terapeutico` are nullable TEXT columns. -/

structure Med where
  clave : String
  descripcion : String
  nombre_generico : Option String
  grupo_terapeutico : Option String
  principio_activo_normalizado : Option String
deriving DecidableEq

structure Grupo where
  principio_activo_normalizado : String
  nombres_comerciales : Option String
  total_medicamentos : Nat
  grupos_terapeuticos : Option String
  fecha_normalizacion : String
deriving DecidableEq

structure MetaRow where
  clave : String
  valor : String
  fecha_actualizacion : String
deriving DecidableEq

/-- The relational store after `setup_optimization_tables` has run: the three
tables the optimization module reads and writes.  `clave` is the primary key
of `medicamentos`, so rows are assumed distinct by key where it matters. -/
structure Store where
  meds : List Med
  pa : List Grupo
  meta : List MetaRow
deriving DecidableEq

/-- `SELECT valor FROM metadatos_sistema WHERE clave = ?` (first row). -/
def lookupMeta (meta : List MetaRow) (k : String) : Option String :=
  (meta.find? (fun r => r.clave == k)).map (·.valor)

/-- `INSERT OR REPLACE INTO metadatos_sistema` keyed on `clave`. -/
def setMeta (meta : List MetaRow) (k v fecha : String) : List MetaRow :=
  meta.filter (fun r => r.clave != k) ++ [⟨k, v, fecha⟩]

/-- The canonical token computed for a record during the normalization pass:
`normalize_active_ingredient(descripcion, nombre_generico or "")`. -/
def canonOf (m : Med) : String :=
  normalize_active_ingredient m.descripcion (m.nombre_generico.getD "")

/-- Step 1 of `normalize_database`: `UPDATE medicamentos SET
principio_activo_normalizado = ? WHERE clave = ?` for every record (keys are
unique, so this is a map over the rows). -/
def updateCanon (meds : List Med) : List Med :=
  meds.map (fun m => { m with principio_activo_normalizado := some (canonOf m) })

/-- The `GROUP BY` keys: distinct non-null, non-empty canonical tokens of the
current records. -/
def groupKeys (meds : List Med) : List String :=
  ((meds.filterMap (·.principio_activo_normalizado)).filter (fun p => p != "")).dedup

/-- Member rows of one canonical token (the `GROUP BY` group / the
`JOIN medicamentos` members). -/
def membersOf (meds : List Med) (k : String) : List Med :=
  meds.filter (fun m => m.principio_activo_normalizado == some k)

/-- SQL `GROUP_CONCAT(expr)` with the default separator `,`; `NULL` when the
group contributes no non-null value. -/
def groupConcat (l : List String) : Option String :=
  match l with
  | [] => none
  | _ => some (joinSepS "," l)

/-- One aggregated `principios_activos` row for key `k`. -/
def mkGrupo (meds : List Med) (now : String) (k : String) : Grupo :=
  { principio_activo_normalizado := k,
    nombres_comerciales := groupConcat ((membersOf meds k).map (·.descripcion)),
    total_medicamentos := (membersOf meds k).length,
    grupos_terapeuticos := groupConcat ((membersOf meds k).filterMap (·.grupo_terapeutico)),
    fecha_normalizacion := now }

/-- Insertion step of a stable insertion sort that keeps `h` before `x`
whenever `keep h x` holds. -/
def insertOrd (keep : α → α → Bool) (x : α) : List α → List α
  | [] => [x]
  | h :: t => if keep h x then h :: insertOrd keep x t else x :: h :: t

/-- Stable insertion sort with respect to `keep` (used for the `ORDER BY`
clauses; only the permutation property matters for the claims). -/
def sortOrd (keep : α → α → Bool) (l : List α) : List α :=
  l.foldr (insertOrd keep) []

/-- Step 2 of `normalize_database`: rebuild `principios_activos` by grouping
the current records' canonical values (excluding `''` and `NULL`),
`ORDER BY COUNT(*) DESC`. -/
def computeGroups (meds : List Med) (now : String) : List Grupo :=
  sortOrd (fun h x => x.total_medicamentos ≤ h.total_medicamentos)
    ((groupKeys meds).map (mkGrupo meds now))

inductive NormEstado | completada | ya_completada
deriving DecidableEq

structure NormResult where
  medicamentos_actualizados : Nat
  principios_activos_encontrados : Nat
  estado : NormEstado
deriving DecidableEq

/-- `IMSSOptimizationModule._get_normalization_stats`: count of records with
non-empty canonical field (SQL `!= ''` excludes `NULL`), count of group
rows, tagged `ya_completada`. -/
def get_normalization_stats (s : Store) : NormResult :=
  { medicamentos_actualizados :=
      s.meds.countP (fun m => m.principio_activo_normalizado.getD "" != ""),
    principios_activos_encontrados := s.pa.length,
    estado := .ya_completada }

/-- `IMSSOptimizationModule.normalize_database`: if the metadata completion
flag reads `'true'`, return the cached statistics without touching the store;
otherwise canonicalize every record, delete and rebuild the group table, and
write the completion flag (`now` stands for `datetime.now().isoformat()`). -/
def normalize_database (now : String) (s : Store) : Store × NormResult :=
  if lookupMeta s.meta "normalizacion_completa" == some "true" then
    (s, get_normalization_stats s)
  else
    let meds' := updateCanon s.meds
    let pa' := computeGroups meds' now
    let meta' := setMeta s.meta "normalizacion_completa" "true" now
    ({ meds := meds', pa := pa', meta := meta' },
     { medicamentos_actualizados := s.meds.length,
       principios_activos_encontrados := pa'.length,
       estado := .completada })

/-- SQLite `x LIKE '%pat%' COLLATE NOCASE` for patterns without wildcard
characters: ASCII-case-insensitive substring test. -/
def asciiLower (c : Char) : Char :=
  if 65 ≤ c.toNat ∧ c.toNat ≤ 90 then Char.ofNat (c.toNat + 32) else c

def likeContains (hay pat : String) : Bool :=
  hasInfixSeq (pat.data.map asciiLower) (hay.data.map asciiLower)

/-- One result row of `find_similar_medications`. -/
structure SimRow where
  principio_activo : String
  total_medicamentos : Nat
  grupos_terapeuticos : List String
  claves : List String
  descripciones : List String
deriving DecidableEq

/-- Python `xs.split(sep) if xs else []` (empty string and `NULL` are falsy). -/
def pySplitIfNonempty (sep s : String) : List String :=
  if s == "" then [] else splitOnS sep s

/-- `IMSSOptimizationModule.find_similar_medications`: canonicalize the term
(passed positionally as the `nombre_generico` argument), substring-match the
group keys case-insensitively, inner-join back to the member records,
aggregate `clave` with separator `'|'` and `descripcion` with the default
separator `','`, order by member count descending, then split the aggregates
on `'|'`, `', '` and `' | '` respectively. -/
def find_similar (s : Store) (term : String) : List SimRow :=
  let sn := normalize_active_ingredient "" term
  sortOrd (fun h x => x.total_medicamentos ≤ h.total_medicamentos)
    (s.pa.filterMap (fun g =>
      let members := membersOf s.meds g.principio_activo_normalizado
      if likeContains g.principio_activo_normalizado sn && !members.isEmpty then
        some { principio_activo := g.principio_activo_normalizado,
               total_medicamentos := g.total_medicamentos,
               grupos_terapeuticos :=
                 match g.grupos_terapeuticos with
                 | some gs => pySplitIfNonempty ", " gs
                 | none => [],
               claves := pySplitIfNonempty "|" (joinSepS "|" (members.map (·.clave))),
               descripciones :=
                 pySplitIfNonempty " | " (joinSepS "," (members.map (·.descripcion))) }
      else none))

/-! ## Concrete catalog of the spec's example scenario -/

/-- The 4-record example catalog: three records with generic names and one
description-only record, before normalization (flag unset, group table
empty). -/
def exampleStore : Store :=
  { meds := [
      ⟨"001", "Paracetamol 500 mg Tableta", some "Paracetamol 500 mg Tableta",
        some "Analgesia", none⟩,
      ⟨"002", "paracetamol 500mg tableta", some "paracetamol 500mg tableta",
        some "Analgesia", none⟩,
      ⟨"003", "Ibuprofeno 400 mg Cápsula", some "Ibuprofeno 400 mg Cápsula",
        some "Analgesia", none⟩,
      ⟨"004", "Clorhidrato de Metformina 850 mg Tableta", none,
        some "Endocrinología", none⟩],
    pa := [], meta := [] }

/-! ## Helper lemmas: sorting is a permutation, metadata lookup, grouping -/

theorem perm_insertOrd (keep : α → α → Bool) (x : α) (l : List α) :
    List.Perm (insertOrd keep x l) (x :: l) := by
  induction l with
  | nil => exact List.Perm.refl _
  | cons h t ih =>
    by_cases hk : keep h x
    · simpa [insertOrd, hk] using (ih.cons h).trans (List.Perm.swap x h t)
    · simp [insertOrd, hk]

theorem perm_sortOrd (keep : α → α → Bool) (l : List α) : List.Perm (sortOrd keep l) l := by
  induction l with
  | nil => exact List.Perm.refl _
  | cons a l ih => exact (perm_insertOrd keep a (sortOrd keep l)).trans (ih.cons a)

theorem lookupMeta_setMeta_self (meta : List MetaRow) (k v f : String) :
    lookupMeta (setMeta meta k v f) k = some v := by
  unfold lookupMeta setMeta
  rw [List.find?_append]
  have h1 : (meta.filter (fun r => r.clave != k)).find? (fun r => r.clave == k) = none := by
    rw [List.find?_eq_none]
    intro x hx
    have := (List.mem_filter.mp hx).2
    simp only [bne_iff_ne, ne_eq, decide_eq_true_eq] at this
    simp [this]
  rw [h1]
  simp [List.find?]

theorem countP_beq_of_nodup {l : List String} (h : l.Nodup) (t : String) :
    l.countP (fun x => x == t) = if t ∈ l then 1 else 0 := by
  induction l with
  | nil => simp
  | cons a l ih =>
    rcases List.nodup_cons.mp h with ⟨ha, hl⟩
    rw [List.countP_cons]
    by_cases hat : a = t
    · subst hat
      simp [ih hl, ha]
    · have : (a == t) = false := by simp [hat]
      simp [ih hl, this, List.mem_cons, Ne.symm hat]

theorem groupKeys_nodup (meds : List Med) : (groupKeys meds).Nodup :=
  List.nodup_dedup _

theorem mem_groupKeys {meds : List Med} {t : String} :
    t ∈ groupKeys meds ↔
      t ≠ "" ∧ ∃ m ∈ meds, m.principio_activo_normalizado = some t := by
  simp only [groupKeys, List.mem_dedup, List.mem_filter, List.mem_filterMap,
    bne_iff_ne, ne_eq, decide_eq_true_eq]
  tauto

theorem mkGrupo_principio (meds : List Med) (now k : String) :
    (mkGrupo meds now k).principio_activo_normalizado = k := rfl

theorem mkGrupo_total (meds : List Med) (now k : String) :
    (mkGrupo meds now k).total_medicamentos = (membersOf meds k).length := rfl

theorem computeGroups_mem {meds : List Med} {now : String} {g : Grupo} :
    g ∈ computeGroups meds now ↔ ∃ k ∈ groupKeys meds, g = mkGrupo meds now k := by
  rw [computeGroups, (perm_sortOrd _ _).mem_iff, List.mem_map]
  constructor
  · rintro ⟨k, hk, rfl⟩; exact ⟨k, hk, rfl⟩
  · rintro ⟨k, hk, rfl⟩; exact ⟨k, hk, rfl⟩

theorem computeGroups_countP (meds : List Med) (now t : String) :
    (computeGroups meds now).countP (fun g => g.principio_activo_normalizado == t)
      = if t ∈ groupKeys meds then 1 else 0 := by
  rw [computeGroups, (perm_sortOrd _ _).countP_eq, List.countP_map]
  exact countP_beq_of_nodup (groupKeys_nodup meds) t

theorem normalize_database_not_complete {s : Store} (now : String)
    (h : lookupMeta s.meta "normalizacion_completa" ≠ some "true") :
    (normalize_database now s).1 =
      { meds := updateCanon s.meds,
        pa := computeGroups (updateCanon s.meds) now,
        meta := setMeta s.meta "normalizacion_completa" "true" now } := by
  have hb : (lookupMeta s.meta "normalizacion_completa" == some "true") = false :=
    beq_eq_false_iff_ne.mpr h
  simp [normalize_database, hb]

/-- C1: for every catalog store state in which `normalize()` has already
completed (i.e. any state produced by a `normalize_database` call), calling
`normalize_database` again performs no writes — the returned store is the
same state — and returns `estado = ya_completada` together with the count of
records whose canonical-ingredient field is non-empty and the count of group
rows. -/
theorem normalize_second_call_is_noop (s : Store) (now now' : String) :
    normalize_database now' ((normalize_database now s).1)
      = ((normalize_database now s).1,
         { medicamentos_actualizados :=
             ((normalize_database now s).1).meds.countP
               (fun m => m.principio_activo_normalizado.getD "" != ""),
           principios_activos_encontrados := ((normalize_database now s).1).pa.length,
           estado := .ya_completada }) := by
  by_cases hc : lookupMeta s.meta "normalizacion_completa" = some "true"
  · have hb : (lookupMeta s.meta "normalizacion_completa" == some "true") = true := by
      simp [hc]
    simp [normalize_database, hb, get_normalization_stats]
  · rw [normalize_database_not_complete now hc]
    have hb2 : (lookupMeta
        (setMeta s.meta "normalizacion_completa" "true" now)
        "normalizacion_completa" == some "true") = true := by
      rw [lookupMeta_setMeta_self]; rfl
    simp [normalize_database, hb2, get_normalization_stats]

/-- C2: after a full normalization pass, for every non-empty canonical token
carried by some record there is exactly one group row keyed by that token
(and none for the empty token or for tokens no record carries), and every
group row's member count equals the number of records carrying its token. -/
theorem normalize_group_table_consistent (s : Store) (now : String)
    (h : lookupMeta s.meta "normalizacion_completa" ≠ some "true") :
    (∀ t : String,
      ((normalize_database now s).1).pa.countP
          (fun g => g.principio_activo_normalizado == t)
        = if t ≠ "" ∧
             ((normalize_database now s).1).meds.any
               (fun m => m.principio_activo_normalizado == some t) = true
          then 1 else 0)
    ∧ (∀ g ∈ ((normalize_database now s).1).pa,
        g.principio_activo_normalizado ≠ "" ∧
        g.total_medicamentos
          = ((normalize_database now s).1).meds.countP
              (fun m => m.principio_activo_normalizado
                          == some g.principio_activo_normalizado)) := by
  rw [normalize_database_not_complete now h]
  constructor
  · intro t
    rw [computeGroups_countP]
    refine if_congr ?_ rfl rfl
    rw [mem_groupKeys]
    simp [List.any_eq_true]
  · intro g hg
    obtain ⟨k, hk, rfl⟩ := computeGroups_mem.mp hg
    refine ⟨(mem_groupKeys.mp hk).1, ?_⟩
    rw [mkGrupo_total, mkGrupo_principio, membersOf]
    exact (List.countP_eq_length_filter _ _).symm

/-- Witness for C2 at the example catalog and the token `PARACETAMOL`. -/
theorem normalize_group_table_consistent_witness :
    lookupMeta exampleStore.meta "normalizacion_completa" ≠ some "true" ∧
    ((normalize_database "2024-01-01" exampleStore).1).pa.countP
        (fun g => g.principio_activo_normalizado == "PARACETAMOL")
      = if ("PARACETAMOL" : String) ≠ "" ∧
           ((normalize_database "2024-01-01" exampleStore).1).meds.any
             (fun m => m.principio_activo_normalizado == some "PARACETAMOL") = true
        then 1 else 0 :=
  ⟨by decide,
   (normalize_group_table_consistent exampleStore "2024-01-01" (by decide)).1
     "PARACETAMOL"⟩

/-- C3 (counterexample): on the example catalog the canonical token of the
record with generic name `"Ibuprofeno 400 mg Cápsula"` is
`"IBUPROFENO CÁPSULA"`, not `"IBUPROFENO"`: the form-word list holds the
unaccented `capsula`, which does not match the accented `cápsula`. -/
theorem example_scenario_counterexample :
    ((normalize_database "2024-01-01" exampleStore).1.meds.map
        (·.principio_activo_normalizado))
      ≠ [some "PARACETAMOL", some "PARACETAMOL", some "IBUPROFENO",
         some "METFORMINA"] ∧
    normalize_active_ingredient "Ibuprofeno 400 mg Cápsula"
        "Ibuprofeno 400 mg Cápsula"
      = "IBUPROFENO CÁPSULA" := by
  constructor
  · decide
  · decide

/-- C3 (amended): running `normalize_database` on the example catalog yields
canonical tokens `PARACETAMOL`, `PARACETAMOL`, `IBUPROFENO CÁPSULA`,
`METFORMINA`; a group table of exactly 3 rows in which the `PARACETAMOL`
group has member count 2; and `find_similar "paracetamol"` returns exactly
that group with the two record keys. -/
theorem example_scenario_amended :
    ((normalize_database "2024-01-01" exampleStore).1.meds.map
        (·.principio_activo_normalizado))
      = [some "PARACETAMOL", some "PARACETAMOL", some "IBUPROFENO CÁPSULA",
         some "METFORMINA"] ∧
    (normalize_database "2024-01-01" exampleStore).1.pa.length = 3 ∧
    (normalize_database "2024-01-01" exampleStore).1.pa.countP
        (fun g => g.principio_activo_normalizado == "PARACETAMOL"
                  && g.total_medicamentos == 2) = 1 ∧
    find_similar (normalize_database "2024-01-01" exampleStore).1 "paracetamol"
      = [{ principio_activo := "PARACETAMOL",
           total_medicamentos := 2,
           grupos_terapeuticos := ["Analgesia,Analgesia"],
           claves := ["001", "002"],
           descripciones :=
             ["Paracetamol 500 mg Tableta,paracetamol 500mg tableta"] }] := by
  refine ⟨by decide, by decide, by decide, by decide⟩

/-- C4 (counterexample): the salt-stripping step removes *every* leftmost
non-overlapping occurrence, not only the first: on an input holding two
listed salt prefixes, no occurrence survives in the output. -/
theorem salt_strip_counterexample :
    hasInfixS "sulfato" "sulfato de sodio sulfato de potasio" = true ∧
    salt_strip_step "sulfato de sodio sulfato de potasio" = "sodio potasio" ∧
    hasInfixS "sulfato" (salt_strip_step "sulfato de sodio sulfato de potasio")
      = false := by
  refine ⟨by decide, by decide, by decide⟩

/-- C4 (amended): the salt-stripping step removes all leftmost
non-overlapping boundary-anchored occurrences of listed salt terms with their
`de` connectives — for any two listed salt terms the input
`⟨salt1⟩ de paracetamol ⟨salt2⟩ de metformina` strips down to
`paracetamol metformina`; the occurrence after the first is removed as well,
not preserved. -/
theorem salt_strip_removes_all (s1 s2 : List Char)
    (h1 : s1 ∈ saltWords) (h2 : s2 ∈ saltWords) :
    salt_strip_step ⟨s1 ++ " de paracetamol ".data ++ s2 ++ " de metformina".data⟩
      = "paracetamol metformina" := by
  fin_cases h1 <;> fin_cases h2 <;> decide

/-- Witness for C4 at the salts `clorhidrato` and `sulfato`. -/
theorem salt_strip_removes_all_witness :
    ("clorhidrato".data ∈ saltWords ∧ "sulfato".data ∈ saltWords) ∧
    salt_strip_step
        ⟨"clorhidrato".data ++ " de paracetamol ".data ++ "sulfato".data
          ++ " de metformina".data⟩
      = "paracetamol metformina" :=
  ⟨⟨by decide, by decide⟩,
   salt_strip_removes_all "clorhidrato".data "sulfato".data (by decide) (by decide)⟩

/-! ## Split/join lemmas for the aggregate-separator analysis (C10) -/

theorem splitOnAux_ne_nil (sep : List Char) : ∀ n cs, splitOnAux sep n cs ≠ [] := by
  intro n
  induction n with
  | zero => intro cs; cases cs <;> simp [splitOnAux]
  | succ n ih =>
    intro cs
    cases cs with
    | nil => simp [splitOnAux]
    | cons c cs' =>
      simp only [splitOnAux]
      split
      · simp
      · split <;> simp

theorem splitOnAux_mono {sep : List Char} (hsep : sep ≠ []) :
    ∀ n m cs, cs.length ≤ n → cs.length ≤ m →
      splitOnAux sep n cs = splitOnAux sep m cs := by
  intro n
  induction n with
  | zero =>
    intro m cs hn _
    have : cs = [] := List.eq_nil_of_length_eq_zero (Nat.le_zero.mp hn)
    subst this
    cases m <;> rfl
  | succ n ih =>
    intro m cs hn hm
    cases cs with
    | nil => cases m <;> rfl
    | cons c cs' =>
      cases m with
      | zero => simp at hm
      | succ m' =>
        have hsl : 0 < sep.length := List.length_pos.mpr hsep
        have hlen : cs'.length + 1 ≤ n + 1 := by simpa using hn
        have hlen' : cs'.length + 1 ≤ m' + 1 := by simpa using hm
        simp only [splitOnAux]
        by_cases hpre : isPrefixSeq sep (c :: cs') = true
        · rw [if_pos hpre, if_pos hpre]
          congr 1
          apply ih
          · have := List.length_drop sep.length (c :: cs')
            simp only [List.length_cons] at this
            omega
          · have := List.length_drop sep.length (c :: cs')
            simp only [List.length_cons] at this
            omega
        · rw [if_neg hpre, if_neg hpre,
            ih m' cs' (Nat.le_of_succ_le_succ hlen) (Nat.le_of_succ_le_succ hlen')]

theorem splitOnAux_no_occ {sep : List Char} :
    ∀ n cs, cs.length ≤ n → hasInfixSeq sep cs = false →
      splitOnAux sep n cs = [cs] := by
  intro n
  induction n with
  | zero =>
    intro cs hn _
    have : cs = [] := List.eq_nil_of_length_eq_zero (Nat.le_zero.mp hn)
    subst this; rfl
  | succ n ih =>
    intro cs hn hocc
    cases cs with
    | nil => rfl
    | cons c cs' =>
      simp only [hasInfixSeq, Bool.or_eq_false_iff] at hocc
      simp only [splitOnAux]
      rw [ih cs' (by simpa using Nat.le_of_succ_le_succ (by simpa using hn)) hocc.2]
      simp [hocc.1]

theorem splitL_no_occ {sep cs : List Char} (h : hasInfixSeq sep cs = false) :
    splitL sep cs = [cs] :=
  splitOnAux_no_occ cs.length cs le_rfl h

theorem splitL_cons_sep (c : Char) (cs : List Char) :
    splitL [c] (c :: cs) = [] :: splitL [c] cs := by
  simp [splitL, splitOnAux, isPrefixSeq]

theorem splitL_cons_ne {d c : Char} (h : d ≠ c) (cs : List Char) :
    splitL [c] (d :: cs)
      = match splitL [c] cs with
        | [] => [[d]]
        | t :: ts => (d :: t) :: ts := by
  simp [splitL, splitOnAux, isPrefixSeq, Ne.symm h]

theorem hasInfix_singleton (c : Char) : ∀ l : List Char,
    hasInfixSeq [c] l = true ↔ c ∈ l := by
  intro l
  induction l with
  | nil => simp [hasInfixSeq, isPrefixSeq]
  | cons d l ih =>
    simp only [hasInfixSeq, isPrefixSeq, Bool.or_eq_true, ih, List.mem_cons]
    constructor
    · rintro (h | h)
      · left; have := (Bool.and_eq_true _ _).mp h; exact decide_eq_true_eq.mp this.1
      · right; exact h
    · rintro (rfl | h)
      · left; simp
      · right; exact h

theorem splitL_through (c : Char) :
    ∀ p rest : List Char, c ∉ p →
      splitL [c] (p ++ c :: rest) = p :: splitL [c] rest := by
  intro p
  induction p with
  | nil => intro rest _; simpa using splitL_cons_sep c rest
  | cons d p' ih =>
    intro rest hc
    have hd : d ≠ c := fun hdc => hc (hdc ▸ List.mem_cons_self d p')
    have hp' : c ∉ p' := fun hm => hc (List.mem_cons_of_mem d hm)
    rw [List.cons_append, splitL_cons_ne hd, ih rest hp']

theorem splitL_join_single (c : Char) :
    ∀ parts : List (List Char), parts ≠ [] → (∀ p ∈ parts, c ∉ p) →
      splitL [c] (joinSep [c] parts) = parts := by
  intro parts
  induction parts with
  | nil => intro h; exact absurd rfl h
  | cons p ps ih =>
    intro _ hall
    cases ps with
    | nil =>
      have : hasInfixSeq [c] p = false := by
        have := hall p (List.mem_cons_self p [])
        cases hoc : hasInfixSeq [c] p with
        | false => rfl
        | true => exact absurd ((hasInfix_singleton c p).mp hoc) this
      simpa [joinSep] using splitL_no_occ this
    | cons q ps' =>
      have hjoin : joinSep [c] (p :: q :: ps') = p ++ c :: joinSep [c] (q :: ps') := by
        simp [joinSep]
      rw [hjoin, splitL_through c p _ (hall p (List.mem_cons_self p _)),
        ih (by simp) (fun x hx => hall x (List.mem_cons_of_mem p hx))]

theorem mapMk_mapData (l : List String) : (l.map (·.data)).map String.mk = l := by
  induction l with
  | nil => rfl
  | cons s l ih => simp [ih]

theorem computeGroups_keys_nodup (meds : List Med) (now : String) :
    ((computeGroups meds now).map (·.principio_activo_normalizado)).Nodup := by
  have heq : ∀ ks : List String,
      (ks.map (mkGrupo meds now)).map (·.principio_activo_normalizado) = ks := by
    intro ks
    induction ks with
    | nil => rfl
    | cons k ks ih => simp [ih, mkGrupo_principio]
  have hperm :
      List.Perm ((computeGroups meds now).map (·.principio_activo_normalizado))
        (groupKeys meds) := by
    have := (perm_sortOrd
      (fun h x => x.total_medicamentos ≤ h.total_medicamentos)
      ((groupKeys meds).map (mkGrupo meds now))).map
        (·.principio_activo_normalizado)
    rwa [heq] at this
  exact hperm.nodup_iff.mpr (groupKeys_nodup meds)

theorem computeGroups_key_inj {meds : List Med} {now : String} {g g' : Grupo}
    (hg : g ∈ computeGroups meds now) (hg' : g' ∈ computeGroups meds now)
    (h : g.principio_activo_normalizado = g'.principio_activo_normalizado) :
    g = g' :=
  List.inj_on_of_nodup_map (computeGroups_keys_nodup meds now) hg hg' h

theorem computeGroups_total {meds : List Med} {now : String} {g : Grupo}
    (hg : g ∈ computeGroups meds now) :
    g.total_medicamentos
      = (membersOf meds g.principio_activo_normalizado).length := by
  obtain ⟨k, _, rfl⟩ := computeGroups_mem.mp hg
  rfl

theorem pySplit_ne {sep s : String} (h : s ≠ "") :
    pySplitIfNonempty sep s = splitOnS sep s := by
  simp [pySplitIfNonempty, h]

theorem splitOnS_no_occ {sep s : String} (h : hasInfixS sep s = false) :
    splitOnS sep s = [s] := by
  simp only [splitOnS, splitL_no_occ h, List.map]

theorem splitOnS_joinSepS_bar (strs : List String) (hne : strs ≠ [])
    (hnb : ∀ x ∈ strs, hasInfixS "|" x = false) :
    splitOnS "|" (joinSepS "|" strs) = strs := by
  have hdata : ("|" : String).data = ['|'] := rfl
  simp only [splitOnS, joinSepS, hdata]
  rw [splitL_join_single '|' (strs.map (·.data)) (by simpa using hne) ?hc]
  · exact mapMk_mapData strs
  case hc =>
    intro p hp
    obtain ⟨x, hx, rfl⟩ := List.mem_map.mp hp
    intro hmem
    have hfalse := hnb x hx
    have htrue := (hasInfix_singleton '|' x.data).mpr hmem
    rw [hasInfixS, hdata] at hfalse
    rw [hfalse] at htrue
    exact Bool.false_ne_true htrue

theorem joinSepS_two_ne (sep : String) (hsep : sep.data ≠ [])
    (parts : List String) (h : 1 < parts.length) : joinSepS sep parts ≠ "" := by
  match parts with
  | [] => simp at h
  | [p] => simp at h
  | p :: q :: ps =>
    intro hemp
    apply hsep
    have hd := congrArg String.data hemp
    simp only [joinSepS] at hd
    have hd2 : p.data ++ sep.data
        ++ joinSep sep.data (q.data :: ps.map (·.data)) = [] := hd
    rcases List.append_eq_nil.mp hd2 with ⟨h1, _⟩
    exact (List.append_eq_nil.mp h1).2

/-- A one-record catalog with an empty institution key and no therapeutic
group, exercising the aggregate-separator edge cases of
`find_similar_medications`. -/
def sepBugStore : Store :=
  { meds := [⟨"", "paracetamol", none, none, none⟩], pa := [], meta := [] }

/-- C10 (counterexample): on a normalized one-record catalog whose key holds
no `'|'` and whose therapeutic-group values hold no `', '`, the sole
`find_similar` result has member count 1 but an empty `claves` list and an
empty `grupos_terapeuticos` list (0 elements, not 1): the `GROUP_CONCAT`
result is the falsy empty string / `NULL`, which Python maps to `[]`. -/
theorem find_similar_separator_counterexample :
    ((find_similar ((normalize_database "2024-01-01" sepBugStore).1)
        "paracetamol").map
      (fun e => (e.total_medicamentos, e.claves.length,
                 e.grupos_terapeuticos.length)))
      = [(1, 0, 0)] ∧
    (∀ m ∈ ((normalize_database "2024-01-01" sepBugStore).1).meds,
      hasInfixS "|" m.clave = false) ∧
    (∀ m ∈ ((normalize_database "2024-01-01" sepBugStore).1).meds,
      hasInfixS ", " (m.grupo_terapeutico.getD "") = false) := by
  refine ⟨by decide, by decide, by decide⟩

/-- C10 (amended): in every result row of `find_similar` over a freshly
normalized store, (a) the `claves` list has exactly `total_medicamentos`
elements whenever no member key holds `'|'` and the `'|'`-joined key string
is non-empty; (b) for every group with more than one member whose
`','`-concatenated descriptions hold no `' | '`, `descripciones` has exactly
one element; (c) for the matching group row, whenever its stored
therapeutic-groups string is non-null, non-empty and holds no `', '`,
`grupos_terapeuticos` has exactly one element. -/
theorem find_similar_separator_amended (s : Store) (now term : String)
    (h : lookupMeta s.meta "normalizacion_completa" ≠ some "true") :
    ∀ e ∈ find_similar ((normalize_database now s).1) term,
      ((∀ m ∈ membersOf ((normalize_database now s).1).meds e.principio_activo,
          hasInfixS "|" m.clave = false) →
        joinSepS "|" ((membersOf ((normalize_database now s).1).meds
            e.principio_activo).map (·.clave)) ≠ "" →
        e.claves.length = e.total_medicamentos)
      ∧ (e.total_medicamentos > 1 →
          hasInfixS " | " (joinSepS ","
            ((membersOf ((normalize_database now s).1).meds
                e.principio_activo).map (·.descripcion))) = false →
          e.descripciones.length = 1)
      ∧ (∀ g ∈ ((normalize_database now s).1).pa,
          g.principio_activo_normalizado = e.principio_activo →
          ∀ gs, g.grupos_terapeuticos = some gs → gs ≠ "" →
            hasInfixS ", " gs = false →
            e.grupos_terapeuticos.length = 1) := by
  rw [normalize_database_not_complete now h]
  intro e he
  simp only [find_similar] at he
  have he2 := (perm_sortOrd _ _).mem_iff.mp he
  rw [List.mem_filterMap] at he2
  obtain ⟨g, hg, hfg⟩ := he2
  dsimp only at hg hfg ⊢
  split at hfg
  case isFalse => exact absurd hfg (by simp)
  case isTrue hcond =>
    have hmemne :
        membersOf (updateCanon s.meds) g.principio_activo_normalizado ≠ [] := by
      have h2 := (Bool.and_eq_true _ _).mp hcond |>.2
      simpa [List.isEmpty_iff] using h2
    have he3 := Option.some.inj hfg
    subst he3
    refine ⟨?_, ?_, ?_⟩
    · intro hkeys hjne
      dsimp only
      rw [pySplit_ne hjne, splitOnS_joinSepS_bar _
        (by simpa using hmemne)
        (fun x hx => by
          obtain ⟨m, hm, rfl⟩ := List.mem_map.mp hx
          exact hkeys m hm),
        List.length_map, computeGroups_total hg]
    · intro htot hocc
      dsimp only at htot ⊢
      rw [computeGroups_total hg] at htot
      have hjne : joinSepS ","
          ((membersOf (updateCanon s.meds)
              g.principio_activo_normalizado).map (·.descripcion)) ≠ "" := by
        apply joinSepS_two_ne "," (by decide)
        rw [List.length_map]
        exact htot
      rw [pySplit_ne hjne, splitOnS_no_occ hocc]
      rfl
    · intro g' hg' heq gs hgs hgsne hocc
      have hgg : g' = g := computeGroups_key_inj hg' hg heq
      subst hgg
      dsimp only
      rw [hgs]
      dsimp only
      rw [pySplit_ne hgsne, splitOnS_no_occ hocc]
      rfl

/-- Witness for C10 at the example catalog, the `PARACETAMOL` result row. -/
theorem find_similar_separator_amended_witness :
    (⟨"PARACETAMOL", 2, ["Analgesia,Analgesia"], ["001", "002"],
       ["Paracetamol 500 mg Tableta,paracetamol 500mg tableta"]⟩ : SimRow)
      ∈ find_similar ((normalize_database "2024-01-01" exampleStore).1)
          "paracetamol" ∧
    (["001", "002"] : List String).length = 2 :=
  ⟨by decide,
   ((find_similar_separator_amended exampleStore "2024-01-01" "paracetamol"
        (by decide)
        ⟨"PARACETAMOL", 2, ["Analgesia,Analgesia"], ["001", "002"],
          ["Paracetamol 500 mg Tableta,paracetamol 500mg tableta"]⟩
        (by decide)).1
      (by decide) (by decide))⟩

/-! ## Inspection and quick-check layer

A `DB` value describes what the read-only tooling can observe through its
own connection: whether the store file exists, which tables/column/indexes
exist, and the rows.  A missing `medicamentos` table makes the first query of
`quick_status` raise, which the source converts to the `error` status. -/

structure DB where
  fileExists : Bool
  medsTableExists : Bool
  hasNormColumn : Bool
  meds : List Med
  paTableExists : Bool
  pa : List Grupo
  metaTableExists : Bool
  meta : List MetaRow
  indexNames : List String
deriving DecidableEq

/-- `COUNT(*) ... WHERE principio_activo_normalizado IS NOT NULL AND != ''`. -/
def normalizedCountL (meds : List Med) : Nat :=
  meds.countP (fun m => m.principio_activo_normalizado.getD "" != "")

/-- `COUNT(*) ... WHERE principio_activo_normalizado IS NULL OR = ''`. -/
def unnormalizedCountL (meds : List Med) : Nat :=
  meds.countP (fun m => m.principio_activo_normalizado.getD "" == "")

/-- Round-half-to-even on an integer boundary (the rounding Python's
built-in `round` uses; the source's percentage values are modelled as exact
rationals). -/
def roundHalfEven (q : ℚ) : ℤ :=
  let n := ⌊q⌋
  if q - n < 1/2 then n
  else if (1 : ℚ)/2 < q - n then n + 1
  else if n % 2 = 0 then n else n + 1

/-- Python `round(q, d)`. -/
def roundTo (d : ℕ) (q : ℚ) : ℚ :=
  (roundHalfEven (q * ((10 ^ d : ℕ) : ℚ)) : ℚ) / ((10 ^ d : ℕ) : ℚ)

/-- The normalization coverage in the sense of the spec: with `T` total
records and `U` records with a null-or-empty canonical field,
`(T − U) / T × 100`, and `0` when `T = 0` (a missing canonical column counts
every record as unnormalized). -/
def coveragePct (db : DB) : ℚ :=
  let T := db.meds.length
  let U := if db.hasNormColumn then unnormalizedCountL db.meds else db.meds.length
  if T = 0 then 0 else (((T - U : ℕ) : ℚ) / (T : ℚ)) * 100

inductive QuickTag | ready | needs_optimization
deriving DecidableEq

structure QuickRec where
  total_medications : Nat
  normalized_medications : Nat
  normalization_percentage : ℚ
  unique_ingredients : Nat
  optimization_table_exists : Bool
  ready_for_use : Bool
deriving DecidableEq

inductive QuickResult
  | no_database
  | error
  | ok (tag : QuickTag) (r : QuickRec)
deriving DecidableEq

/-- The unrounded `normalization_percent` local of `quick_status`:
`normalized_count / total * 100` guarded by column presence and the
divide-by-zero check. -/
def quickPercent (db : DB) : ℚ :=
  if db.hasNormColumn then
    (if 0 < db.meds.length
     then (normalizedCountL db.meds : ℚ) / (db.meds.length : ℚ) * 100
     else 0)
  else 0

/-- `IMSSQuickChecker.quick_status`: `no_database` when the store file is
absent; `error` when the catalog-table query raises; otherwise the statistics
record with status `ready` iff the (unrounded) percentage exceeds 90,
percentage reported rounded to **1** decimal, and
`ready_for_use = (percentage > 50 and the group table exists)`. -/
def quick_status (db : DB) : QuickResult :=
  if !db.fileExists then .no_database
  else if !db.medsTableExists then .error
  else
    let total := db.meds.length
    let normalized := if db.hasNormColumn then normalizedCountL db.meds else 0
    let percent : ℚ := quickPercent db
    let uniq := if db.paTableExists then db.pa.length else 0
    .ok (if 90 < percent then .ready else .needs_optimization)
      { total_medications := total,
        normalized_medications := normalized,
        normalization_percentage := roundTo 1 percent,
        unique_ingredients := uniq,
        optimization_table_exists := db.paTableExists,
        ready_for_use := decide (50 < percent) && db.paTableExists }

/-- The `normalization_quality` component of
`IMSSDatabaseInspector.analyze_active_ingredients`: only produced when the
canonical column exists and the catalog is non-empty; percentage rounded to
2 decimals.  `none` models the empty dict left when `total = 0`. -/
structure QualityRec where
  total_medications : Nat
  normalized_medications : Nat
  unnormalized_medications : Nat
  normalization_percentage : ℚ
deriving DecidableEq

def analyze_quality (db : DB) : Option QualityRec :=
  if db.hasNormColumn then
    let unnormalized := unnormalizedCountL db.meds
    let total := db.meds.length
    if 0 < total then
      some { total_medications := total,
             normalized_medications := total - unnormalized,
             unnormalized_medications := unnormalized,
             normalization_percentage :=
               roundTo 2 ((((total - unnormalized : Nat) : ℚ)) / (total : ℚ) * 100) }
    else none
  else none

/-- `IMSSDatabaseInspector.check_normalization_status` (the fields the
recommendation rules read). -/
structure NormStatus where
  normalization_tables_exist : Bool
  normalization_completed : Bool
  medicamentos_normalized : Nat
  medicamentos_without_normalization : Nat
  active_ingredients_found : Nat
  optimization_indexes_exist : Bool
deriving DecidableEq

def check_normalization_status (db : DB) : NormStatus :=
  { normalization_tables_exist := db.paTableExists && db.metaTableExists,
    normalization_completed :=
      db.metaTableExists && (lookupMeta db.meta "normalizacion_completa" == some "true"),
    medicamentos_normalized :=
      if db.hasNormColumn then normalizedCountL db.meds else 0,
    medicamentos_without_normalization :=
      if db.hasNormColumn then unnormalizedCountL db.meds else 0,
    active_ingredients_found := if db.paTableExists then db.pa.length else 0,
    optimization_indexes_exist :=
      db.indexNames.any (fun n => hasInfixS "principio_activo" n) }

/-- The recommendation rules of
`IMSSDatabaseInspector.get_inspection_report`, in source order. -/
def recommendations (st : NormStatus) : List String :=
  (if !st.normalization_tables_exist then
     ["Ejecutar módulo de optimización para crear tablas de normalización"]
   else []) ++
  (if !st.normalization_completed then
     ["Ejecutar proceso de normalización completa"] else []) ++
  (if 0 < st.medicamentos_without_normalization then
     ["Normalizar " ++ toString st.medicamentos_without_normalization
        ++ " medicamentos restantes"]
   else []) ++
  (if !st.optimization_indexes_exist then
     ["Crear índices de optimización para búsquedas rápidas"] else []) ++
  (if st.active_ingredients_found == 0 then
     ["Generar tabla de principios activos agrupados"] else [])

/-- The recommendations field of `get_inspection_report`. -/
def inspection_recommendations (db : DB) : List String :=
  recommendations (check_normalization_status db)

theorem normalized_add_unnormalized (meds : List Med) :
    normalizedCountL meds + unnormalizedCountL meds = meds.length := by
  unfold normalizedCountL unnormalizedCountL
  induction meds with
  | nil => rfl
  | cons m l ih =>
    rw [List.countP_cons, List.countP_cons, List.length_cons]
    cases hb : (m.principio_activo_normalizado.getD "" == "") with
    | true =>
      have hb2 : (m.principio_activo_normalizado.getD "" != "") = false := by
        simp [bne, hb]
      simp only [hb, hb2, if_true, if_false, Bool.false_eq_true]
      omega
    | false =>
      have hb2 : (m.principio_activo_normalizado.getD "" != "") = true := by
        simp [bne, hb]
      simp only [hb, hb2, if_true, if_false, Bool.false_eq_true]
      omega

theorem unnormalized_le_length (meds : List Med) :
    unnormalizedCountL meds ≤ meds.length := by
  have := normalized_add_unnormalized meds
  omega

theorem quickPercent_eq_coverage (db : DB) :
    quickPercent db = coveragePct db := by
  by_cases hc : db.hasNormColumn = true
  · by_cases ht : 0 < db.meds.length
    · have hsum := normalized_add_unnormalized db.meds
      have hsub : db.meds.length - unnormalizedCountL db.meds
          = normalizedCountL db.meds := by omega
      have hne : ¬ db.meds.length = 0 := by omega
      simp only [quickPercent, coveragePct, hc, if_true, ht, hne, if_false, hsub]
    · have h0 : db.meds.length = 0 := by omega
      simp [quickPercent, coveragePct, hc, h0]
  · simp only [Bool.not_eq_true] at hc
    by_cases ht : db.meds.length = 0
    · simp [quickPercent, coveragePct, hc, ht]
    · simp [quickPercent, coveragePct, hc, ht]

/-- C6: `quick_status` returns `no_database` exactly when the store file is
absent; on an existing store it returns `error` exactly when the catalog
query fails; in the success case the tag is `ready` exactly when the
coverage exceeds 90, and `ready_for_use` holds exactly when the coverage
exceeds 50 and the group table exists. -/
theorem quick_status_classification (db : DB) :
    (quick_status db = .no_database ↔ db.fileExists = false)
    ∧ (quick_status db = .error
        ↔ (db.fileExists = true ∧ db.medsTableExists = false))
    ∧ (∀ tag r, quick_status db = .ok tag r →
        ((tag = .ready ↔ 90 < coveragePct db)
         ∧ (r.ready_for_use = true
             ↔ (50 < coveragePct db ∧ db.paTableExists = true)))) := by
  by_cases hf : db.fileExists = true
  · by_cases hm : db.medsTableExists = true
    · refine ⟨?_, ?_, ?_⟩
      · simp [quick_status, hf, hm]
      · simp [quick_status, hf, hm]
      · intro tag r hok
        have hok' :
            QuickResult.ok
              (if 90 < quickPercent db then QuickTag.ready
               else QuickTag.needs_optimization)
              { total_medications := db.meds.length,
                normalized_medications :=
                  if db.hasNormColumn then normalizedCountL db.meds else 0,
                normalization_percentage := roundTo 1 (quickPercent db),
                unique_ingredients :=
                  if db.paTableExists then db.pa.length else 0,
                optimization_table_exists := db.paTableExists,
                ready_for_use :=
                  decide (50 < quickPercent db) && db.paTableExists }
              = QuickResult.ok tag r := by
          rw [← hok]
          simp [quick_status, hf, hm]
        rw [QuickResult.ok.injEq] at hok'
        obtain ⟨htag, hr⟩ := hok'
        have hps := quickPercent_eq_coverage db
        constructor
        · rw [← htag, ← hps]
          by_cases hp : 90 < quickPercent db <;> simp [hp]
        · rw [← hr, ← hps]
          simp [Bool.and_eq_true, decide_eq_true_eq]
    · simp only [Bool.not_eq_true] at hm
      refine ⟨?_, ?_, ?_⟩
      · simp [quick_status, hf, hm]
      · simp [quick_status, hf, hm]
      · intro tag r hok
        simp [quick_status, hf, hm] at hok
  · simp only [Bool.not_eq_true] at hf
    refine ⟨?_, ?_, ?_⟩
    · simp [quick_status, hf]
    · simp [quick_status, hf]
    · intro tag r hok
      simp [quick_status, hf] at hok

/-- A ready store: one normalized record, group table and indexes present,
completion flag set. -/
def dbReady : DB :=
  { fileExists := true, medsTableExists := true, hasNormColumn := true,
    meds := [⟨"A", "a", none, none, some "X"⟩],
    paTableExists := true, pa := [⟨"X", some "a", 1, none, "t"⟩],
    metaTableExists := true, meta := [⟨"normalizacion_completa", "true", "t"⟩],
    indexNames := ["idx_principio_activo", "idx_optimized_search",
                   "idx_categoria_estado"] }

/-- Witness for C6 at the ready store. -/
theorem quick_status_classification_witness :
    quick_status dbReady
      = QuickResult.ok .ready ⟨1, 1, 100, 1, true, true⟩ ∧
    (QuickTag.ready = QuickTag.ready ↔ 90 < coveragePct dbReady) :=
  ⟨by decide,
   ((quick_status_classification dbReady).2.2 .ready ⟨1, 1, 100, 1, true, true⟩
      (by decide)).1⟩

/-- A catalog of 3 records, 2 normalized — true coverage 200/3 %. -/
def db3 : DB :=
  { fileExists := true, medsTableExists := true, hasNormColumn := true,
    meds := [⟨"A", "a", none, none, some "X"⟩, ⟨"B", "b", none, none, some "Y"⟩,
             ⟨"C", "c", none, none, none⟩],
    paTableExists := true, pa := [], metaTableExists := true, meta := [],
    indexNames := [] }

/-- An empty catalog (`T = 0`) with the canonical column present. -/
def dbEmptyCatalog : DB :=
  { fileExists := true, medsTableExists := true, hasNormColumn := true,
    meds := [], paTableExists := false, pa := [], metaTableExists := false,
    meta := [], indexNames := [] }

/-- C5 (counterexample): with `T = 3`, `U = 1`, `quick_status` reports the
percentage rounded to one decimal (66.7), which differs from
`round((T−U)/T×100, 2) = 66.67`; and on an empty catalog the inspector's
quality analysis reports nothing at all (`none`) rather than a 0 coverage. -/
theorem coverage_rounding_counterexample :
    quick_status db3
      = QuickResult.ok .needs_optimization ⟨3, 2, 667/10, 0, true, true⟩ ∧
    roundTo 2 ((((3 - 1 : ℕ) : ℚ)) / ((3 : ℕ) : ℚ) * 100) = 6667/100 ∧
    ((667 : ℚ)/10) ≠ 6667/100 ∧
    analyze_quality dbEmptyCatalog = none := by
  refine ⟨by decide, by decide, by decide, by decide⟩

/-- C5 (amended): with the canonical column present, the inspector's quality
analysis reports `round((T−U)/T×100, 2)` when `T > 0` and omits the figures
(`none`) when `T = 0`; `quick_status` reports `round((T−U)/T×100, 1)` — one
decimal, not two — and reports 0 rather than failing when `T = 0`. -/
theorem coverage_arithmetic_amended (db : DB) :
    (db.hasNormColumn = true → 0 < db.meds.length →
      analyze_quality db = some
        { total_medications := db.meds.length,
          normalized_medications := db.meds.length - unnormalizedCountL db.meds,
          unnormalized_medications := unnormalizedCountL db.meds,
          normalization_percentage := roundTo 2 (coveragePct db) })
    ∧ (db.meds.length = 0 → analyze_quality db = none)
    ∧ (∀ tag r, quick_status db = .ok tag r →
        r.normalization_percentage = roundTo 1 (coveragePct db))
    ∧ (db.meds.length = 0 → ∀ tag r, quick_status db = .ok tag r →
        r.normalization_percentage = 0) := by
  have hps := quickPercent_eq_coverage db
  have hpct : ∀ tag r, quick_status db = .ok tag r →
      r.normalization_percentage = roundTo 1 (coveragePct db) := by
    intro tag r hok
    by_cases hf : db.fileExists = true
    · by_cases hm : db.medsTableExists = true
      · have hok' :
            QuickResult.ok
              (if 90 < quickPercent db then QuickTag.ready
               else QuickTag.needs_optimization)
              { total_medications := db.meds.length,
                normalized_medications :=
                  if db.hasNormColumn then normalizedCountL db.meds else 0,
                normalization_percentage := roundTo 1 (quickPercent db),
                unique_ingredients :=
                  if db.paTableExists then db.pa.length else 0,
                optimization_table_exists := db.paTableExists,
                ready_for_use :=
                  decide (50 < quickPercent db) && db.paTableExists }
              = QuickResult.ok tag r := by
          rw [← hok]
          simp [quick_status, hf, hm]
        rw [QuickResult.ok.injEq] at hok'
        rw [← hok'.2, ← hps]
      · simp only [Bool.not_eq_true] at hm
        simp [quick_status, hf, hm] at hok
    · simp only [Bool.not_eq_true] at hf
      simp [quick_status, hf] at hok
  refine ⟨?_, ?_, hpct, ?_⟩
  · intro hc ht
    have hne : ¬ db.meds.length = 0 := by omega
    simp only [analyze_quality, hc, if_true, ht, coveragePct, hne, if_false]
  · intro h0
    simp [analyze_quality, h0]
  · intro h0 tag r hok
    rw [hpct tag r hok]
    have hcov : coveragePct db = 0 := by simp [coveragePct, h0]
    rw [hcov]
    decide

/-- Witness for C5 at the 3-record catalog. -/
theorem coverage_arithmetic_amended_witness :
    (db3.hasNormColumn = true ∧ 0 < db3.meds.length) ∧
    analyze_quality db3 = some
      { total_medications := db3.meds.length,
        normalized_medications := db3.meds.length - unnormalizedCountL db3.meds,
        unnormalized_medications := unnormalizedCountL db3.meds,
        normalization_percentage := roundTo 2 (coveragePct db3) } :=
  ⟨⟨by decide, by decide⟩,
   (coverage_arithmetic_amended db3).1 (by decide) (by decide)⟩

/-- A store whose inspection yields completion flag true, zero unnormalized
records and ingredient indexes present — but zero ingredient groups. -/
def dbFlagNoGroups : DB :=
  { fileExists := true, medsTableExists := true, hasNormColumn := true,
    meds := [], paTableExists := true, pa := [], metaTableExists := true,
    meta := [⟨"normalizacion_completa", "true", "t"⟩],
    indexNames := ["idx_principio_activo"] }

/-- C7 (counterexample): a store with `flag = true`, `unnormalized = 0` and
indexes present (and even both derived tables present) still yields a
non-empty recommendations list, because the zero-ingredient-groups rule
fires. -/
theorem recommendations_counterexample :
    (check_normalization_status dbFlagNoGroups).normalization_tables_exist = true ∧
    (check_normalization_status dbFlagNoGroups).normalization_completed = true ∧
    (check_normalization_status dbFlagNoGroups).medicamentos_without_normalization = 0 ∧
    (check_normalization_status dbFlagNoGroups).optimization_indexes_exist = true ∧
    inspection_recommendations dbFlagNoGroups ≠ [] := by
  refine ⟨by decide, by decide, by decide, by decide, by decide⟩

/-- C7 (amended): when the inspection reports the derived tables missing, the
create-normalization-tables item is recommended; the recommendations list is
empty when the tables exist, the flag is set, no record is unnormalized, the
ingredient indexes exist, **and at least one ingredient group row exists**. -/
theorem recommendations_firing_amended (db : DB) :
    ((check_normalization_status db).normalization_tables_exist = false →
      "Ejecutar módulo de optimización para crear tablas de normalización"
        ∈ inspection_recommendations db)
    ∧ (((check_normalization_status db).normalization_tables_exist = true ∧
        (check_normalization_status db).normalization_completed = true ∧
        (check_normalization_status db).medicamentos_without_normalization = 0 ∧
        (check_normalization_status db).optimization_indexes_exist = true ∧
        0 < (check_normalization_status db).active_ingredients_found) →
        inspection_recommendations db = []) := by
  constructor
  · intro h
    simp [inspection_recommendations, recommendations, h]
  · rintro ⟨h1, h2, h3, h4, h5⟩
    have h5' : ((check_normalization_status db).active_ingredients_found == 0)
        = false := by
      simp only [beq_eq_false_iff_ne, ne_eq]
      omega
    simp [inspection_recommendations, recommendations, h1, h2, h3, h4, h5']

/-- Witness for C7 at the ready store (groups present → no recommendations). -/
theorem recommendations_firing_amended_witness :
    ((check_normalization_status dbReady).normalization_tables_exist = true ∧
     (check_normalization_status dbReady).normalization_completed = true ∧
     (check_normalization_status dbReady).medicamentos_without_normalization = 0 ∧
     (check_normalization_status dbReady).optimization_indexes_exist = true ∧
     0 < (check_normalization_status dbReady).active_ingredients_found) ∧
    inspection_recommendations dbReady = [] :=
  ⟨⟨by decide, by decide, by decide, by decide, by decide⟩,
   (recommendations_firing_amended dbReady).2
     ⟨by decide, by decide, by decide, by decide, by decide⟩⟩

/-! ## Schema/index manager (C8) -/

inductive SqlError
  | noSuchTable (t : String)
  | duplicateColumn
deriving DecidableEq

/-- What the DDL of `setup_optimization_tables` can observe and change. -/
structure SchemaSt where
  medsTableExists : Bool
  normColumnExists : Bool
  paTableExists : Bool
  metaTableExists : Bool
  indexes : List String
deriving DecidableEq

/-- `ALTER TABLE medicamentos ADD COLUMN principio_activo_normalizado TEXT`:
fails when the catalog table is absent or when the column already exists
(both are `sqlite3.OperationalError`). -/
def alterAddColumn (st : SchemaSt) : Except SqlError SchemaSt :=
  if !st.medsTableExists then .error (.noSuchTable "medicamentos")
  else if st.normColumnExists then .error .duplicateColumn
  else .ok { st with normColumnExists := true }

/-- The `try/except sqlite3.OperationalError: pass` wrapper around the
`ALTER TABLE` statement. -/
def alterStep (st : SchemaSt) : SchemaSt :=
  match alterAddColumn st with
  | .ok st' => st'
  | .error _ => st

/-- `CREATE TABLE IF NOT EXISTS principios_activos ...`. -/
def createPa (st : SchemaSt) : SchemaSt := { st with paTableExists := true }

/-- `CREATE TABLE IF NOT EXISTS metadatos_sistema ...`. -/
def createMetaT (st : SchemaSt) : SchemaSt := { st with metaTableExists := true }

/-- `CREATE INDEX IF NOT EXISTS`. -/
def insertIdx (name : String) (l : List String) : List String :=
  if name ∈ l then l else l ++ [name]

/-- `CREATE INDEX IF NOT EXISTS ... ON medicamentos(...)`: fails when the
catalog table is absent. -/
def createIndex (name : String) (st : SchemaSt) : Except SqlError SchemaSt :=
  if st.medsTableExists then .ok { st with indexes := insertIdx name st.indexes }
  else .error (.noSuchTable "medicamentos")

/-- `IMSSOptimizationModule.setup_optimization_tables`: the swallowed `ALTER`,
the two `CREATE TABLE IF NOT EXISTS`, and the three index creations, the
first failure aborting the call. -/
def setup_optimization_tables (st : SchemaSt) : Except SqlError SchemaSt :=
  let st1 := createMetaT (createPa (alterStep st))
  match createIndex "idx_principio_activo" st1 with
  | .error e => .error e
  | .ok st2 =>
    match createIndex "idx_optimized_search" st2 with
    | .error e => .error e
    | .ok st3 =>
      match createIndex "idx_categoria_estado" st3 with
      | .error e => .error e
      | .ok st4 => .ok st4

theorem mem_insertIdx (a : String) (l : List String) : a ∈ insertIdx a l := by
  unfold insertIdx
  split
  · assumption
  · simp

theorem mem_insertIdx_of_mem {a : String} (b : String) {l : List String}
    (h : a ∈ l) : a ∈ insertIdx b l := by
  unfold insertIdx
  split
  · exact h
  · simp [h]

theorem insertIdx_of_mem {a : String} {l : List String} (h : a ∈ l) :
    insertIdx a l = l := by
  simp [insertIdx, h]

/-- C8: when the catalog table exists, `setup_optimization_tables` succeeds —
in particular the duplicate-column failure of the `ALTER` step is treated as
success, so a repeated call succeeds again and leaves the schema unchanged;
when the catalog table is absent, the call surfaces a fatal
`no such table` error instead of silently succeeding. -/
theorem setup_schema_idempotent_and_fatal (st : SchemaSt) :
    (st.medsTableExists = true →
      ∃ st', setup_optimization_tables st = .ok st'
        ∧ setup_optimization_tables st' = .ok st')
    ∧ (st.medsTableExists = false →
      setup_optimization_tables st = .error (.noSuchTable "medicamentos")) := by
  obtain ⟨mt, nc, pt, met, idx⟩ := st
  constructor
  · intro hm
    subst hm
    refine ⟨⟨true, true, true, true,
      insertIdx "idx_categoria_estado" (insertIdx "idx_optimized_search"
        (insertIdx "idx_principio_activo" idx))⟩, ?_, ?_⟩
    · cases nc <;>
        simp [setup_optimization_tables, alterStep, alterAddColumn, createPa,
          createMetaT, createIndex]
    · have m1 : "idx_principio_activo" ∈
          insertIdx "idx_categoria_estado" (insertIdx "idx_optimized_search"
            (insertIdx "idx_principio_activo" idx)) :=
        mem_insertIdx_of_mem _ (mem_insertIdx_of_mem _ (mem_insertIdx _ idx))
      have m2 : "idx_optimized_search" ∈
          insertIdx "idx_categoria_estado" (insertIdx "idx_optimized_search"
            (insertIdx "idx_principio_activo" idx)) :=
        mem_insertIdx_of_mem _ (mem_insertIdx _ _)
      have m3 : "idx_categoria_estado" ∈
          insertIdx "idx_categoria_estado" (insertIdx "idx_optimized_search"
            (insertIdx "idx_principio_activo" idx)) :=
        mem_insertIdx _ _
      simp [setup_optimization_tables, alterStep, alterAddColumn, createPa,
        createMetaT, createIndex, insertIdx_of_mem m1, insertIdx_of_mem m2,
        insertIdx_of_mem m3]
  · intro hm
    subst hm
    simp [setup_optimization_tables, alterStep, alterAddColumn, createPa,
      createMetaT, createIndex]

/-- Witness for C8: a fresh schema state with the catalog table present. -/
theorem setup_schema_idempotent_and_fatal_witness :
    (SchemaSt.mk true false false false []).medsTableExists = true ∧
    ∃ st', setup_optimization_tables ⟨true, false, false, false, []⟩ = .ok st'
      ∧ setup_optimization_tables st' = .ok st' :=
  ⟨by decide,
   (setup_schema_idempotent_and_fatal ⟨true, false, false, false, []⟩).1
     (by decide)⟩

/-! ## Normalization examples of the Inspection Reporter (C9) -/

/-- Byte/codepoint-order comparison used to model `ORDER BY` with the
default BINARY collation. -/
def strLtB : List Char → List Char → Bool
  | [], [] => false
  | [], _ :: _ => true
  | _ :: _, [] => false
  | a :: as, b :: bs =>
    if a.toNat < b.toNat then true
    else if b.toNat < a.toNat then false
    else strLtB as bs

def strLeB (s t : String) : Bool := !strLtB t.data s.data

/-- Python's `generic_name or description` (`None` and `""` are falsy). -/
def pyOr (a : Option String) (b : String) : String :=
  match a with
  | none => b
  | some s => if s == "" then b else s

structure NormProcess where
  original : String
  normalized : String
  process_applied : Bool
deriving DecidableEq

/-- `IMSSDatabaseInspector._show_normalization_process`: the original text is
the generic name when present (truthy) else the description, and the
`process_applied` flag is the plain `original != normalized` comparison. -/
def show_normalization_process (description : String) (generic : Option String)
    (normalized : String) : NormProcess :=
  let original := pyOr generic description
  { original := original, normalized := normalized,
    process_applied := original != normalized }

structure NormExample where
  clave : String
  original_description : String
  generic_name : Option String
  normalized_ingredient : String
  normalization_applied : NormProcess
deriving DecidableEq

/-- Canonical field present and non-empty. -/
def hasCanon (m : Med) : Bool := m.principio_activo_normalizado.getD "" != ""

def mkNormExample (m : Med) : NormExample :=
  { clave := m.clave, original_description := m.descripcion,
    generic_name := m.nombre_generico,
    normalized_ingredient := m.principio_activo_normalizado.getD "",
    normalization_applied :=
      show_normalization_process m.descripcion m.nombre_generico
        (m.principio_activo_normalizado.getD "") }

/-- `IMSSDatabaseInspector.find_normalization_examples`: nothing without the
canonical column; with a search term, the records whose description, generic
name or canonical token contains the term (SQLite `LIKE`,
ASCII-case-insensitive; a `NULL` generic name never matches) and whose
canonical token is non-empty, ordered by canonical token, first 20; without
a term, records with a non-empty canonical token — the source's
`ORDER BY RANDOM()` is modelled as the store order — first 15. -/
def find_normalization_examples (db : DB) (term : String) : List NormExample :=
  if !db.hasNormColumn then []
  else
    let rows :=
      if term != "" then
        (sortOrd
          (fun h x => strLeB (h.principio_activo_normalizado.getD "")
                            (x.principio_activo_normalizado.getD ""))
          (db.meds.filter (fun m =>
            (likeContains m.descripcion term
              || likeContains (m.nombre_generico.getD "") term
              || likeContains (m.principio_activo_normalizado.getD "") term)
            && hasCanon m))).take 20
      else
        (db.meds.filter hasCanon).take 15
    rows.map mkNormExample

/-- A store with one record whose original text differs from its canonical
token only in letter case. -/
def dbCaseOnly : DB :=
  { fileExists := true, medsTableExists := true, hasNormColumn := true,
    meds := [⟨"K1", "Paracetamol", none, none, some "PARACETAMOL"⟩],
    paTableExists := true, pa := [], metaTableExists := true, meta := [],
    indexNames := [] }

/-- C9 (counterexample): a sampled record whose original text differs from
its canonical token only in case is reported with `process_applied = true`
(plain string inequality), not `false` as the case-folded reading claims. -/
theorem normalization_flag_counterexample :
    ((find_normalization_examples dbCaseOnly "para").map
        (fun e => (e.normalization_applied.original,
                   e.normalization_applied.normalized,
                   e.normalization_applied.process_applied)))
      = [("Paracetamol", "PARACETAMOL", true)] ∧
    pyLower "Paracetamol" = pyLower "PARACETAMOL" := by
  refine ⟨by decide, by decide⟩

/-- C9 (amended): for every sampled record, the reported original text is the
generic name when truthy else the description, and the `process_applied`
flag is true iff original and canonical differ as plain strings
(case-sensitively) — so a case-only difference reports `true`. -/
theorem normalization_flag_amended (db : DB) (term : String) :
    ∀ e ∈ find_normalization_examples db term,
      e.normalization_applied.original
        = pyOr e.generic_name e.original_description
      ∧ (e.normalization_applied.process_applied = true
          ↔ e.normalization_applied.original
              ≠ e.normalization_applied.normalized) := by
  intro e he
  simp only [find_normalization_examples] at he
  split at he
  · exact absurd he (by simp)
  · obtain ⟨m, _, rfl⟩ := List.mem_map.mp he
    refine ⟨rfl, ?_⟩
    simp [mkNormExample, show_normalization_process, bne_iff_ne]

/-- Witness for C9 at the case-only store. -/
theorem normalization_flag_amended_witness :
    mkNormExample ⟨"K1", "Paracetamol", none, none, some "PARACETAMOL"⟩
      ∈ find_normalization_examples dbCaseOnly "para" ∧
    ((mkNormExample
        ⟨"K1", "Paracetamol", none, none, some "PARACETAMOL"⟩).normalization_applied.process_applied = true
      ↔ (mkNormExample
          ⟨"K1", "Paracetamol", none, none,
            some "PARACETAMOL"⟩).normalization_applied.original
          ≠ (mkNormExample
              ⟨"K1", "Paracetamol", none, none,
                some "PARACETAMOL"⟩).normalization_applied.normalized) :=
  ⟨by decide,
   (normalization_flag_amended dbCaseOnly "para"
      (mkNormExample ⟨"K1", "Paracetamol", none, none, some "PARACETAMOL"⟩)
      (by decide)).2⟩
